import Mathlib

set_option linter.unusedSectionVars false
set_option linter.unnecessarySimpa false

/-!
Verification of the layer-workspace navigation model of the `datafoo`
repository.

Two variants of the model exist in the source and are both embedded here:

* the edge-linked workspace (`LayerWorkspaceProvider` in the layer workspace
  context module): nodes stored in a `Map` keyed by id, a position index keyed
  by the coordinate string `x:y:z`, per-surface stacks keyed by `x:y`, and an
  active-layer pointer;
* the coordinate-grid provider (`Page.LayerProvider` in the page module):
  layers registered in creation order with `(x, y, z)` grid coordinates, a
  current viewport offset per axis, and a bounded navigation history with a
  cursor.

Modelling conventions, chosen to stay faithful to the TypeScript source:

* A JavaScript `Map` is an insertion-ordered association list (`LMap` below):
  `set` replaces in place when the key is present and appends otherwise, and
  iteration (`forEach`, `values()`) follows insertion order.
* The string keys built by `coordKey(x,y,z)` / `surfaceKey(x,y)` are template
  strings over integers separated by `:`; that encoding is injective, so the
  keys are modelled directly as integer tuples.
* `render`, `description`, `data`, `customData` are opaque payloads never
  inspected by the model, and `createdAt` / `timestamp` come from `Date.now()`
  and are never read back by any modelled operation; they are omitted.
* A `throw` is modelled by returning an `Except.error` paired with the state
  as mutated up to the throw site, so theorems about "state unchanged after a
  failed call" genuinely reflect the order of checks and mutations in the
  source.
* `Array.prototype.sort` with comparator `(a, b) => b.z - a.z` is modelled by
  an insertion sort with the relation `z b ≤ z a`; both are stable sorts and
  agree on every comparison-sorted outcome.
* The React state updates of the grid provider are modelled with two-phase
  semantics: within one event handler every callback reads the render-time
  snapshot of React state (captured in its closure), direct `setState(v)`
  calls overwrite the pending value, functional `setState(f)` calls apply to
  the pending value, and mutable refs (`layersRef`, `layerOrderRef`) read and
  write synchronously.  Each operation below that participates in such a
  chain therefore threads a `snap` (snapshot) state and a `pending` state.
-/

/-- An insertion-ordered association list mirroring a JavaScript `Map`. -/
structure LMap (α β : Type) where
  entries : List (α × β)
deriving DecidableEq, Repr

namespace LMap

variable {α β : Type} [DecidableEq α]

/-- The empty map (`new Map()`). -/
def empty : LMap α β := ⟨[]⟩

/-- `Map.prototype.get`. -/
def get? (m : LMap α β) (k : α) : Option β :=
  (m.entries.find? (fun e => decide (e.1 = k))).map Prod.snd

/-- `Map.prototype.has`. -/
def has (m : LMap α β) (k : α) : Bool :=
  m.entries.any (fun e => decide (e.1 = k))

/-- `Map.prototype.set`: replace in place if present, append otherwise. -/
def set (m : LMap α β) (k : α) (v : β) : LMap α β :=
  if m.has k then ⟨m.entries.map (fun e => if e.1 = k then (k, v) else e)⟩
  else ⟨m.entries ++ [(k, v)]⟩

/-- `Map.prototype.size`. -/
def size (m : LMap α β) : Nat := m.entries.length

/-- Update every value in place (`Map.prototype.forEach` + `set` on each
existing key, which preserves insertion order). -/
def mapVals (m : LMap α β) (f : β → β) : LMap α β :=
  ⟨m.entries.map (fun e => (e.1, f e.2))⟩

/-- The keys of the map are pairwise distinct. -/
def keysNodup (m : LMap α β) : Prop := (m.entries.map Prod.fst).Nodup

end LMap

/-!
## Edge-linked workspace variant (`LayerWorkspaceProvider`)

Embedding of the layer-workspace context: `registerNode`, `addRootLayer`,
`addLayer`, `setActiveLayer`, `getActiveLayer`, `navigate`, `isEdgeAvailable`.
-/

/-- `EdgeDirection = "up" | "right" | "down" | "left"`. -/
inductive EdgeDirection where
  | up
  | right
  | down
  | left
deriving DecidableEq, Repr

/-- The direction argument of `addLayer` / `isEdgeAvailable`:
`EdgeDirection | "above"`. -/
inductive ConnectDirection where
  | up
  | right
  | down
  | left
  | above
deriving DecidableEq, Repr

/-- The keys of a node's `adjacent` record:
`EdgeDirection | "above" | "below"`. -/
inductive AdjKey where
  | up
  | right
  | down
  | left
  | above
  | below
deriving DecidableEq, Repr

/-- The key of the `adjacent` record named by a connect direction. -/
def ConnectDirection.toAdjKey : ConnectDirection → AdjKey
  | .up => .up
  | .right => .right
  | .down => .down
  | .left => .left
  | .above => .above

/-- The `oppositeEdge` table: up↔down, left↔right, above↔below. -/
def oppositeEdge : ConnectDirection → AdjKey
  | .up => .down
  | .down => .up
  | .left => .right
  | .right => .left
  | .above => .below

/-- The `edgeOffsets` table for lateral directions:
up=(0,+1), right=(+1,0), down=(0,-1), left=(-1,0). -/
def edgeOffsets : EdgeDirection → Int × Int
  | .up => (0, 1)
  | .right => (1, 0)
  | .down => (0, -1)
  | .left => (-1, 0)

/-- A node's `adjacent` record,
`Partial<Record<EdgeDirection | DepthDirection, string>>`. -/
structure Adjacent where
  up : Option String := none
  right : Option String := none
  down : Option String := none
  left : Option String := none
  above : Option String := none
  below : Option String := none
deriving DecidableEq, Repr

/-- Read the `adjacent` entry for a key. -/
def Adjacent.get (a : Adjacent) : AdjKey → Option String
  | .up => a.up
  | .right => a.right
  | .down => a.down
  | .left => a.left
  | .above => a.above
  | .below => a.below

/-- Write the `adjacent` entry for a key. -/
def Adjacent.setKey (a : Adjacent) (k : AdjKey) (v : String) : Adjacent :=
  match k with
  | .up => { a with up := some v }
  | .right => { a with right := some v }
  | .down => { a with down := some v }
  | .left => { a with left := some v }
  | .above => { a with above := some v }
  | .below => { a with below := some v }

/-- A `LayerNode` (the opaque `render`/`description`/`data` payload and the
`Date.now()` timestamp `createdAt` are never read by the modelled operations
and are omitted). -/
structure LayerNode where
  id : String
  title : String
  x : Int
  y : Int
  z : Int
  adjacent : Adjacent
deriving DecidableEq, Repr

/-- A `LayerDefinition` (payload fields omitted as above). -/
structure LayerDefinition where
  id : String
  title : String
deriving DecidableEq, Repr

/-- A `ConnectLayerInput`. -/
structure ConnectLayerInput where
  id : String
  title : String
  fromLayerId : String
  direction : ConnectDirection
deriving DecidableEq, Repr

/-- `coordKey(x,y,z)`: the template string is an injective encoding of the
triple, modelled as the triple itself. -/
def coordKey (x y z : Int) : Int × Int × Int := (x, y, z)

/-- `surfaceKey(x,y)`: likewise modelled as the pair. -/
def surfaceKey (x y : Int) : Int × Int := (x, y)

/-- The mutable state of a `LayerWorkspaceProvider`: `layersRef`,
`positionIndexRef`, `surfaceStacksRef` and the `activeLayerId` React state. -/
structure WState where
  layers : LMap String LayerNode
  positionIndex : LMap (Int × Int × Int) String
  surfaceStacks : LMap (Int × Int) (List String)
  activeLayerId : Option String
deriving DecidableEq, Repr

/-- The initial provider state: empty maps, no active layer. -/
def WState.empty : WState :=
  { layers := LMap.empty
    positionIndex := LMap.empty
    surfaceStacks := LMap.empty
    activeLayerId := none }

/-- The `z` of the node registered under an id, read from the layers map
(the source asserts presence with `!`; absent ids do not occur). -/
def zOf (layers : LMap String LayerNode) (id : String) : Int :=
  ((layers.get? id).map (·.z)).getD 0

/-- Insert an id into a stack sorted by descending `z`.  Models one step of
`stack.sort((a, b) => b.z - a.z)` after a push; since both are stable
comparison sorts they produce the same list. -/
def insertDescZ (layers : LMap String LayerNode) (id : String) :
    List String → List String
  | [] => [id]
  | x :: xs =>
    if zOf layers x ≤ zOf layers id then id :: x :: xs
    else x :: insertDescZ layers id xs

/-- Sort a stack of ids by descending `z`
(`stack.sort((a, b) => b.z - a.z)`). -/
def sortDescZ (layers : LMap String LayerNode) (l : List String) :
    List String :=
  l.foldr (insertDescZ layers) []

/-- `registerNode`: store the node, index its coordinate, and push its id
onto the surface stack for `(x, y)`, re-sorting by descending `z` (the sort
comparator reads `z` from the layers map after the node is stored). -/
def registerNode (s : WState) (node : LayerNode) : WState :=
  let layers := s.layers.set node.id node
  let positionIndex :=
    s.positionIndex.set (coordKey node.x node.y node.z) node.id
  let stackKey := surfaceKey node.x node.y
  let stack := (s.surfaceStacks.get? stackKey).getD []
  let stack := sortDescZ layers (stack ++ [node.id])
  { s with
    layers := layers
    positionIndex := positionIndex
    surfaceStacks := s.surfaceStacks.set stackKey stack }

/-- `updateNode`: re-store a node under its id. -/
def updateNode (s : WState) (node : LayerNode) : WState :=
  { s with layers := s.layers.set node.id node }

/-- The distinct errors thrown by the workspace operations. -/
inductive WErr where
  | duplicateRoot
  | positionOccupied (x y z : Int)
  | layerNotFound (id : String)
  | edgeOccupied (id : String) (d : ConnectDirection)
deriving DecidableEq, Repr

/-- Equality of call results (used to evaluate concrete scenarios). -/
instance {ε α : Type} [DecidableEq ε] [DecidableEq α] :
    DecidableEq (Except ε α)
  | .error e, .error f =>
    if h : e = f then isTrue (by rw [h])
    else isFalse (by intro hc; cases hc; exact h rfl)
  | .error _, .ok _ => isFalse (by intro hc; cases hc)
  | .ok _, .error _ => isFalse (by intro hc; cases hc)
  | .ok a, .ok b =>
    if h : a = b then isTrue (by rw [h])
    else isFalse (by intro hc; cases hc; exact h rfl)

/-- `addRootLayer`: throws if any node exists, otherwise creates the node at
`(0,0,0)`, registers it, marks it active, and returns its id.  A throw is the
`error` constructor paired with the state as mutated up to the throw site. -/
def addRootLayer (s : WState) (layer : LayerDefinition) :
    Except WErr String × WState :=
  if s.layers.size > 0 then (.error .duplicateRoot, s)
  else
    let node : LayerNode :=
      { id := layer.id, title := layer.title
        x := 0, y := 0, z := 0, adjacent := {} }
    let s := registerNode s node
    let s := { s with activeLayerId := some node.id }
    (.ok node.id, s)

/-- The target coordinate computed by `addLayer`: `"above"` raises `z` by one,
a lateral direction applies `edgeOffsets`. -/
def targetCoord (con : LayerNode) (d : ConnectDirection) : Int × Int × Int :=
  match d with
  | .above => (con.x, con.y, con.z + 1)
  | .up => (con.x + (edgeOffsets .up).1, con.y + (edgeOffsets .up).2, con.z)
  | .right =>
    (con.x + (edgeOffsets .right).1, con.y + (edgeOffsets .right).2, con.z)
  | .down =>
    (con.x + (edgeOffsets .down).1, con.y + (edgeOffsets .down).2, con.z)
  | .left =>
    (con.x + (edgeOffsets .left).1, con.y + (edgeOffsets .left).2, con.z)

/-- `addLayer`: checks, in source order, that the source node exists, that it
has no neighbor in the requested direction, and that the target coordinate is
free (`ensurePositionAvailable`); only then registers the new node, wires the
bidirectional adjacency (from → new under the direction, new → from under the
opposite), re-stores both nodes, and activates the new node. -/
def addLayer (s : WState) (input : ConnectLayerInput) :
    Except WErr String × WState :=
  match s.layers.get? input.fromLayerId with
  | none => (.error (.layerNotFound input.fromLayerId), s)
  | some con =>
    if (con.adjacent.get input.direction.toAdjKey).isSome then
      (.error (.edgeOccupied con.id input.direction), s)
    else
      let (x, y, z) := targetCoord con input.direction
      if s.positionIndex.has (coordKey x y z) then
        (.error (.positionOccupied x y z), s)
      else
        let node : LayerNode :=
          { id := input.id, title := input.title
            x := x, y := y, z := z, adjacent := {} }
        let s := registerNode s node
        -- `const target = layersRef.current.get(node.id)!` after the set
        let target := (s.layers.get? node.id).getD node
        -- `from.adjacent[direction] = node.id` mutates the object fetched
        -- before `registerNode`; `updateNode(from)` then `updateNode(target)`
        -- re-store both, the later write winning when the ids coincide.
        let conUpd :=
          { con with
            adjacent := con.adjacent.setKey input.direction.toAdjKey node.id }
        let targetUpd :=
          { target with
            adjacent :=
              target.adjacent.setKey (oppositeEdge input.direction) con.id }
        let s := updateNode s conUpd
        let s := updateNode s targetUpd
        let s := { s with activeLayerId := some node.id }
        (.ok node.id, s)

/-- `setActiveLayer`: throws for unknown ids, otherwise updates only the
active pointer. -/
def setActiveLayer (s : WState) (layerId : String) :
    Except WErr Unit × WState :=
  if s.layers.has layerId then
    (.ok (), { s with activeLayerId := some layerId })
  else (.error (.layerNotFound layerId), s)

/-- `getActiveLayer`: the node stored under `activeLayerId`, if any. -/
def getActiveLayer (s : WState) : Option LayerNode :=
  match s.activeLayerId with
  | none => none
  | some aid => s.layers.get? aid

/-- `NavigationDirection` of the workspace variant. -/
inductive NavigationDirection where
  | up
  | right
  | down
  | left
  | forward
  | backward
  | first
  | last
deriving DecidableEq, Repr

/-- Transition to a neighbor id when present (`if (neighborKey)
setActiveLayerId(neighborKey)`), otherwise leave the state unchanged. -/
def followNeighbor (s : WState) : Option String → WState
  | some n => { s with activeLayerId := some n }
  | none => s

/-- `navigate`: `first`/`last` jump within the active node's surface stack
(falling back to the current id when the stack is missing or empty);
`forward`/`backward` follow the `above`/`below` adjacency; the lateral
directions follow their adjacency entry; every missing target is a no-op. -/
def navigate (s : WState) (d : NavigationDirection) : WState :=
  match s.activeLayerId with
  | none => s
  | some aid =>
    match s.layers.get? aid with
    | none => s
    | some active =>
      match d with
      | .first =>
        match s.surfaceStacks.get? (surfaceKey active.x active.y) with
        | none => s
        | some stack =>
          { s with activeLayerId := some (stack.head?.getD aid) }
      | .last =>
        match s.surfaceStacks.get? (surfaceKey active.x active.y) with
        | none => s
        | some stack =>
          { s with activeLayerId := some (stack.getLast?.getD aid) }
      | .forward => followNeighbor s (active.adjacent.get .above)
      | .backward => followNeighbor s (active.adjacent.get .below)
      | .up => followNeighbor s (active.adjacent.get .up)
      | .down => followNeighbor s (active.adjacent.get .down)
      | .left => followNeighbor s (active.adjacent.get .left)
      | .right => followNeighbor s (active.adjacent.get .right)

/-- `isEdgeAvailable`: `false` for unknown ids, otherwise whether the node has
no neighbor under the given direction. -/
def isEdgeAvailable (s : WState) (layerId : String)
    (direction : ConnectDirection) : Bool :=
  match s.layers.get? layerId with
  | none => false
  | some layer => !(layer.adjacent.get direction.toAdjKey).isSome

/-!
## Coordinate-grid variant (`Page.LayerProvider`)

Embedding of the grid provider: `registerLayer`, `addToHistory`,
`navigateToIndex`, `navigateToLayer`, `navigateToGridPosition`, `goBack`,
`goForward`.

React state (`currentX`, `currentY`, `currentOffset`, `history`,
`historyIndex`) obeys the two-phase update semantics described at the top of
this file; `layersRef` / `layerOrderRef` are plain mutable refs.  The grid
configuration is the default one (`spacing` 1000 per axis, no bounds), the
history bound is the default `maxHistory = 20`, the `offset` ref is the
constant 1000, and the screen-reader live region is mounted (its ref is
non-null), as it is whenever the provider is rendered.
-/

namespace Grid

/-- `LayerState`; the modelled operations only ever assign `active` and
`inactive`. -/
inductive LayerState where
  | active
  | inactive
  | hidden
  | transitioning
deriving DecidableEq, Repr

/-- `LayerMetadata` (the `type`/`description`/`priority`/`customData` payload
and the `adjacent` record are never read by the modelled operations and are
omitted). -/
structure LayerMetadata where
  id : String
  title : String
  index : Nat
  zPosition : Int
  x : Int
  y : Int
  z : Int
  state : LayerState
deriving DecidableEq, Repr

/-- `LayerConfig`: the coordinates default to 0 (`config.x ?? 0`, …). -/
structure LayerConfig where
  title : String
  x : Option Int := none
  y : Option Int := none
  z : Option Int := none
deriving DecidableEq, Repr

/-- `NavigationHistoryEntry` (the `Date.now()` timestamp is never read and is
omitted). -/
structure NavigationHistoryEntry where
  layerId : String
  index : Int
deriving DecidableEq, Repr

/-- `Grid3DPosition`. -/
structure Grid3DPosition where
  x : Int
  y : Int
  z : Int
deriving DecidableEq, Repr

/-- The `offset` ref, initialised to 1000 and never reassigned. -/
def offsetRef : Int := 1000

/-- The default `maxHistory` bound. -/
def maxHistory : Int := 20

/-- The default grid spacing per axis. -/
def spacing : Int := 1000

/-- The provider's state: the `layersRef` map, the `layerOrderRef` creation
order, the three viewport coordinates, and the navigation history with its
cursor (`historyIndex`, initially −1). -/
structure GridState where
  layers : LMap String LayerMetadata
  layerOrder : List String
  currentX : Int
  currentY : Int
  currentOffset : Int
  history : List NavigationHistoryEntry
  historyIndex : Int
deriving DecidableEq, Repr

/-- The initial provider state. -/
def GridState.init : GridState :=
  { layers := LMap.empty
    layerOrder := []
    currentX := 0
    currentY := 0
    currentOffset := 0
    history := []
    historyIndex := -1 }

/-- `registerLayer`: an already-registered id returns its existing index;
otherwise the layer is appended to the creation order and stored, `active`
exactly when its coordinates are the origin `(0,0,0)`. -/
def registerLayer (s : GridState) (id : String) (config : LayerConfig) :
    Nat × GridState :=
  match s.layers.get? id with
  | some existingLayer => (existingLayer.index, s)
  | none =>
    let index := s.layerOrder.length
    let layerOrder := s.layerOrder ++ [id]
    let x := config.x.getD 0
    let y := config.y.getD 0
    let z := config.z.getD 0
    let isOrigin := x = 0 ∧ y = 0 ∧ z = 0
    let metadata : LayerMetadata :=
      { id := id
        title := config.title
        index := index
        zPosition := -(index : Int) * offsetRef
        x := x, y := y, z := z
        state := if isOrigin then .active else .inactive }
    (index, { s with layers := s.layers.set id metadata
                     layerOrder := layerOrder })

/-- `addToHistory(layerId, index)`: the functional `setHistory` updater
truncates the *pending* history at the *snapshot* cursor + 1, appends the
entry, and evicts the oldest entry past the bound; the functional
`setHistoryIndex` updater bumps the *pending* cursor, capped at the bound. -/
def addToHistoryFrom (snap pending : GridState) (layerId : String)
    (index : Int) : GridState :=
  let newHistory :=
    pending.history.take (snap.historyIndex + 1).toNat ++
      [{ layerId := layerId, index := index }]
  let newHistory :=
    if maxHistory < (newHistory.length : Int) then newHistory.drop 1
    else newHistory
  { pending with
    history := newHistory
    historyIndex := min (pending.historyIndex + 1) (maxHistory - 1) }

/-- `navigateToIndex(targetIndex)` as invoked with snapshot `snap` while the
pending state is `pending`: unconditionally re-centres the Z offset on the
target index and recomputes every layer's `state` from its screen-space Z
(`-layer.index * offset + newOffset`); then, only when the index is within
the registered range, records the visit in the history. -/
def navigateToIndexFrom (snap pending : GridState) (targetIndex : Int) :
    GridState :=
  let totalLayers := pending.layerOrder.length
  let newOffset := -targetIndex * offsetRef
  let pending :=
    { pending with
      currentOffset := newOffset
      layers := pending.layers.mapVals (fun layer =>
        { layer with
          state :=
            if -(layer.index : Int) * offsetRef + newOffset = 0 then
              .active
            else .inactive }) }
  if 0 ≤ targetIndex ∧ targetIndex < (totalLayers : Int) then
    match pending.layerOrder.get? targetIndex.toNat with
    | some lid => addToHistoryFrom snap pending lid targetIndex
    | none => pending
  else pending

/-- `navigateToIndex` as a standalone event: snapshot and pending coincide. -/
def navigateToIndex (s : GridState) (targetIndex : Int) : GridState :=
  navigateToIndexFrom s s targetIndex

/-- `Array.prototype.indexOf`: −1 when absent. -/
def jsIndexOf (l : List String) (x : String) : Int :=
  if x ∈ l then (l.indexOf x : Int) else -1

/-- `navigateToLayer(layerId)`: look the id up in the creation order and
navigate to its index; unknown ids (`indexOf` = −1) are silently ignored. -/
def navigateToLayer (s : GridState) (layerId : String) : GridState :=
  let index := jsIndexOf s.layerOrder layerId
  if index > -1 then navigateToIndex s index else s

/-- `navigateToGridPosition(position)`: find the first registered layer at
exactly that coordinate (in insertion order); when none exists the call
returns without touching anything; otherwise update all three viewport
coordinates, recompute every layer's `state` from its screen-space position,
and record the visit (the live region is mounted). -/
def navigateToGridPosition (s : GridState) (position : Grid3DPosition) :
    GridState :=
  match (s.layers.entries.map Prod.snd).find? (fun layer =>
      decide (layer.x = position.x ∧ layer.y = position.y ∧
        layer.z = position.z)) with
  | none => s
  | some layerAtPosition =>
    let newX := position.x * spacing
    let newY := position.y * spacing
    let newZ := position.z * spacing
    let pending :=
      { s with
        currentX := newX
        currentY := newY
        currentOffset := newZ
        layers := s.layers.mapVals (fun layer =>
          let layerScreenX := layer.x * spacing - newX
          let layerScreenY := layer.y * spacing - newY
          let layerScreenZ := layer.z * spacing - newZ
          { layer with
            state :=
              if layerScreenX = 0 ∧ layerScreenY = 0 ∧ layerScreenZ = 0 then
                .active
              else .inactive }) }
    addToHistoryFrom s pending layerAtPosition.id layerAtPosition.index

/-- `goBack`: only when the cursor is positive, decrement the cursor and
re-navigate to the index recorded just before it (the entry is read from the
snapshot history; the source reads `history[historyIndex - 1]` which is in
range whenever the cursor tracks the history, as it does in every reachable
state). -/
def goBack (s : GridState) : GridState :=
  if s.historyIndex > 0 then
    match s.history.get? (s.historyIndex - 1).toNat with
    | some prevEntry =>
      navigateToIndexFrom s { s with historyIndex := s.historyIndex - 1 }
        prevEntry.index
    | none => s
  else s

/-- `goForward`: symmetric to `goBack` past the other end. -/
def goForward (s : GridState) : GridState :=
  if s.historyIndex < (s.history.length : Int) - 1 then
    match s.history.get? (s.historyIndex + 1).toNat with
    | some nextEntry =>
      navigateToIndexFrom s { s with historyIndex := s.historyIndex + 1 }
        nextEntry.index
    | none => s
  else s

/-- `getActiveLayer`: the first layer in insertion order whose `state` is
`active`. -/
def getActiveLayer (s : GridState) : Option LayerMetadata :=
  (s.layers.entries.map Prod.snd).find? (fun layer =>
    decide (layer.state = .active))

end Grid

/-!
## Derived notions and concrete scenarios
-/

/-- The two sizes compared by the registry invariant: the position index and
the node store stay in lockstep. -/
def sizeEq (s : WState) : Prop := s.positionIndex.size = s.layers.size

/-- Every stored node's `id` equals the key it is stored under (true in every
state reachable through the public operations). -/
def idCoherent (s : WState) : Prop := ∀ q ∈ s.layers.entries, q.2.id = q.1

/-- A run of `addLayer` calls in which every call succeeds and every call uses
an id that is not yet registered. -/
inductive ConnSeq : WState → List ConnectLayerInput → WState → Prop where
  | nil (s : WState) : ConnSeq s [] s
  | cons {s sf : WState} {i : ConnectLayerInput} {is : List ConnectLayerInput}
      (hok : ∃ id, (addLayer s i).1 = .ok id)
      (hfresh : s.layers.has i.id = false)
      (htail : ConnSeq (addLayer s i).2 is sf) :
      ConnSeq s (i :: is) sf

/-- The surface-stack invariant of the workspace: keys are unique in both
maps, every node's surface has a stack, and each stack is sorted by
descending `z` and holds exactly the ids of the nodes on its surface. -/
def surfInv (s : WState) : Prop :=
  s.layers.keysNodup ∧ s.surfaceStacks.keysNodup ∧
  (∀ q ∈ s.layers.entries, s.surfaceStacks.has (surfaceKey q.2.x q.2.y) = true) ∧
  (∀ p ∈ s.surfaceStacks.entries,
    List.Pairwise (fun a b => zOf s.layers b ≤ zOf s.layers a) p.2 ∧
    (∀ id ∈ p.2,
      (s.layers.get? id).map (fun n => surfaceKey n.x n.y) = some p.1) ∧
    (∀ q ∈ s.layers.entries, surfaceKey q.2.x q.2.y = p.1 → q.1 ∈ p.2))

/-- Workspace with just a root node `"r"` at the origin. -/
def wsRoot : WState :=
  (addRootLayer WState.empty { id := "r", title := "r" }).2

/-- `wsRoot` after `connect("r", "up", …)` placing `"n"` at `(0,1,0)`. -/
def wsUp : WState :=
  (addLayer wsRoot
    { id := "n", title := "n", fromLayerId := "r", direction := .up }).2

/-- `wsRoot` after `connect("r", "right", …)` placing `"A"` at `(1,0,0)`. -/
def wsRight : WState :=
  (addLayer wsRoot
    { id := "A", title := "A", fromLayerId := "r", direction := .right }).2

/-- `wsRoot` after `connect("r", "above", …)` placing `"t"` at `(0,0,1)`. -/
def wsAbove : WState :=
  (addLayer wsRoot
    { id := "t", title := "t", fromLayerId := "r", direction := .above }).2

/-- The duplicate-id connect: reuses the root's id `"r"` as the new node's
id while targeting the free coordinate `(1,0,0)`. -/
def wsDupInput : ConnectLayerInput :=
  { id := "r", title := "dup", fromLayerId := "r", direction := .right }

namespace Grid

/-- The grid scenario of the navigation-history property: a root registered
at `(0,0,0)`, `A` at `(1,0,0)`, `B` at `(2,0,0)`. -/
def registered : GridState :=
  let s := GridState.init
  let s := (registerLayer s "root"
    { title := "root", x := some 0, y := some 0, z := some 0 }).2
  let s := (registerLayer s "A"
    { title := "A", x := some 1, y := some 0, z := some 0 }).2
  (registerLayer s "B"
    { title := "B", x := some 2, y := some 0, z := some 0 }).2

/-- `registered` after `navigateToPosition(2,0,0)`, which activates `B` and
records the single history entry. -/
def scenario : GridState :=
  navigateToGridPosition registered { x := 2, y := 0, z := 0 }

/-- A grid with one registered layer `"r"` at the origin. -/
def oneLayer : GridState :=
  (registerLayer GridState.init "r" { title := "r" }).2

end Grid

/-!
## Lemmas about the map embedding
-/

namespace LMap

variable {α β : Type} [DecidableEq α]

theorem has_iff_isSome_get? (m : LMap α β) (k : α) :
    m.has k = true ↔ (m.get? k).isSome = true := by
  rcases m with ⟨l⟩
  show (l.any fun e => decide (e.1 = k)) = true ↔
    ((l.find? fun e => decide (e.1 = k)).map Prod.snd).isSome = true
  induction l with
  | nil => simp
  | cons e es ih =>
    by_cases h : e.1 = k
    · rw [List.find?_cons_of_pos _ (by simpa using h)]
      simp [h]
    · rw [List.find?_cons_of_neg _ (by simpa using h)]
      simpa [h] using ih

theorem get?_eq_none_of_has_false {m : LMap α β} {k : α}
    (h : m.has k = false) : m.get? k = none := by
  cases hg : m.get? k with
  | none => rfl
  | some v =>
    have := (has_iff_isSome_get? m k).mpr (by simp [hg])
    rw [this] at h
    cases h

theorem has_false_of_get?_none {m : LMap α β} {k : α}
    (h : m.get? k = none) : m.has k = false := by
  cases hh : m.has k
  · rfl
  · have := (has_iff_isSome_get? m k).mp hh
    rw [h] at this
    cases this

theorem get?_set_self (m : LMap α β) (k : α) (v : β) :
    (m.set k v).get? k = some v := by
  rcases m with ⟨l⟩
  unfold set has get?
  by_cases h : l.any (fun e => decide (e.1 = k)) = true
  · rw [if_pos h]
    simp only [List.any_eq_true, decide_eq_true_eq] at h
    induction l with
    | nil => simp at h
    | cons e es ih =>
      by_cases he : e.1 = k
      · rw [List.map_cons, if_pos he,
          List.find?_cons_of_pos _ (by simp)]
        rfl
      · rw [List.map_cons, if_neg he,
          List.find?_cons_of_neg _ (by simpa using he)]
        apply ih
        rcases h with ⟨x, hx, hxk⟩
        rcases List.mem_cons.mp hx with rfl | hxs
        · exact absurd hxk he
        · exact ⟨x, hxs, hxk⟩
  · rw [if_neg h]
    simp only [List.find?_append]
    have hnone : l.find? (fun e => decide (e.1 = k)) = none := by
      rw [List.find?_eq_none]
      intro x hx hc
      exact h (List.any_eq_true.mpr ⟨x, hx, hc⟩)
    rw [hnone]
    simp [List.find?]

/-- Replacing the value at key `k` in place does not change lookups at any
other key. -/
theorem find?_replace_ne {l : List (α × β)} {k k' : α} (v : β) (h : k' ≠ k) :
    (l.map (fun e => if e.1 = k then (k, v) else e)).find?
        (fun e => decide (e.1 = k')) =
      l.find? (fun e => decide (e.1 = k')) := by
  induction l with
  | nil => simp
  | cons e es ih =>
    by_cases he : e.1 = k
    · rw [List.map_cons, if_pos he,
        List.find?_cons_of_neg _ (by simpa using Ne.symm h),
        List.find?_cons_of_neg _ (by simp [he]; exact Ne.symm h)]
      exact ih
    · by_cases hk' : e.1 = k'
      · rw [List.map_cons, if_neg he,
          List.find?_cons_of_pos _ (by simpa using hk'),
          List.find?_cons_of_pos _ (by simpa using hk')]
      · rw [List.map_cons, if_neg he,
          List.find?_cons_of_neg _ (by simpa using hk'),
          List.find?_cons_of_neg _ (by simpa using hk')]
        exact ih

theorem get?_set_ne (m : LMap α β) {k k' : α} (v : β) (h : k' ≠ k) :
    (m.set k v).get? k' = m.get? k' := by
  rcases m with ⟨l⟩
  unfold set get?
  by_cases hh : (LMap.mk (α := α) (β := β) l).has k = true
  · rw [if_pos hh]
    exact congrArg (Option.map Prod.snd) (find?_replace_ne v h)
  · rw [if_neg hh]
    simp only [List.find?_append]
    have : List.find? (fun e => decide (e.1 = k')) [(k, v)] = none := by
      rw [List.find?_eq_none]
      intro x hx
      simp only [List.mem_singleton] at hx
      subst hx
      simpa using Ne.symm h
    rw [this]
    simp

theorem size_set_of_has {m : LMap α β} {k : α} (v : β)
    (h : m.has k = true) : (m.set k v).size = m.size := by
  unfold set
  rw [if_pos h]
  simp [size]

theorem size_set_of_has_false {m : LMap α β} {k : α} (v : β)
    (h : m.has k = false) : (m.set k v).size = m.size + 1 := by
  unfold set
  rw [if_neg (by simp [h])]
  simp [size]

theorem size_mapVals (m : LMap α β) (f : β → β) :
    (m.mapVals f).size = m.size := by
  simp [mapVals, size]

theorem get?_mapVals (m : LMap α β) (f : β → β) (k : α) :
    (m.mapVals f).get? k = (m.get? k).map f := by
  rcases m with ⟨l⟩
  unfold mapVals get?
  induction l with
  | nil => simp
  | cons e es ih =>
    by_cases he : e.1 = k
    · rw [List.map_cons, List.find?_cons_of_pos _ (by simpa using he),
        List.find?_cons_of_pos _ (by simpa using he)]
      rfl
    · rw [List.map_cons, List.find?_cons_of_neg _ (by simpa using he),
        List.find?_cons_of_neg _ (by simpa using he)]
      exact ih

theorem keysNodup_empty : (empty : LMap α β).keysNodup := by
  unfold empty keysNodup
  simp

theorem keysNodup_set {m : LMap α β} (k : α) (v : β)
    (h : m.keysNodup) : (m.set k v).keysNodup := by
  rcases m with ⟨l⟩
  unfold set
  split
  · unfold keysNodup at h ⊢
    have heq : (List.map Prod.fst
        (l.map (fun e => if e.1 = k then (k, v) else e))) =
        l.map Prod.fst := by
      rw [List.map_map]
      apply List.map_congr_left
      intro e _
      by_cases he : e.1 = k <;> simp [he]
    simpa [heq] using h
  · rename_i hh
    unfold keysNodup at h ⊢
    have hk : ∀ e ∈ l, ¬ e.1 = k := by
      intro e he hek
      unfold has at hh
      exact hh (List.any_eq_true.mpr ⟨e, he, by simpa using hek⟩)
    simp only [List.map_append, List.map_cons, List.map_nil]
    rw [List.nodup_append]
    refine ⟨h, by simp, ?_⟩
    intro a ha
    simp only [List.mem_map] at ha
    obtain ⟨e, he, rfl⟩ := ha
    simp only [List.mem_singleton]
    exact fun hc => hk e he hc

theorem mem_of_get? {m : LMap α β} {k : α} {v : β}
    (h : m.get? k = some v) : (k, v) ∈ m.entries := by
  unfold get? at h
  simp only [Option.map_eq_some'] at h
  obtain ⟨e, he, rfl⟩ := h
  have hm := List.mem_of_find?_eq_some he
  have hp := List.find?_some he
  have hek : e.1 = k := by simpa using hp
  have : e = (k, e.2) := by
    cases e
    simp_all
  rw [this] at hm
  exact hm

theorem get?_of_mem {m : LMap α β} {p : α × β}
    (hnd : m.keysNodup) (h : p ∈ m.entries) : m.get? p.1 = some p.2 := by
  rcases m with ⟨l⟩
  unfold get?
  unfold keysNodup at hnd
  simp only at h hnd ⊢
  induction l with
  | nil => cases h
  | cons e es ih =>
    simp only [List.map_cons, List.nodup_cons] at hnd
    rcases List.mem_cons.mp h with rfl | hmem
    · rw [List.find?_cons_of_pos _ (by simp)]
      rfl
    · have hne : ¬ e.1 = p.1 := by
        intro hc
        exact hnd.1 (hc ▸ List.mem_map_of_mem Prod.fst hmem)
      rw [List.find?_cons_of_neg _ (by simpa using hne)]
      exact ih hnd.2 hmem

theorem mem_entries_set {m : LMap α β} {k : α} {v : β} {p : α × β} :
    p ∈ (m.set k v).entries ↔ p = (k, v) ∨ (p ∈ m.entries ∧ p.1 ≠ k) := by
  rcases m with ⟨l⟩
  unfold set
  split
  · rename_i hh
    constructor
    · intro hp
      simp only [List.mem_map] at hp
      obtain ⟨e, he, hpe⟩ := hp
      by_cases hek : e.1 = k
      · left
        rw [if_pos hek] at hpe
        exact hpe.symm
      · right
        rw [if_neg hek] at hpe
        exact ⟨hpe ▸ he, hpe ▸ hek⟩
    · intro hp
      rcases hp with rfl | ⟨hmem, hne⟩
      · unfold has at hh
        simp only [List.any_eq_true] at hh
        obtain ⟨e, he, hek⟩ := hh
        have hek' : e.1 = k := by simpa using hek
        simp only [List.mem_map]
        exact ⟨e, he, by rw [if_pos hek']⟩
      · simp only [List.mem_map]
        exact ⟨p, hmem, by rw [if_neg hne]⟩
  · rename_i hh
    unfold has at hh
    simp only [List.any_eq_true] at hh
    constructor
    · intro hp
      rcases List.mem_append.mp hp with hmem | hlast
      · right
        refine ⟨hmem, fun hc => ?_⟩
        exact hh ⟨p, hmem, by simpa using hc⟩
      · left
        simpa using hlast
    · intro hp
      rcases hp with rfl | ⟨hmem, _⟩
      · exact List.mem_append.mpr (Or.inr (by simp))
      · exact List.mem_append.mpr (Or.inl hmem)

theorem has_set_self (m : LMap α β) (k : α) (v : β) :
    (m.set k v).has k = true := by
  rw [has_iff_isSome_get?, get?_set_self]
  rfl

theorem has_set_of_has {m : LMap α β} {k' : α} (k : α) (v : β)
    (h : m.has k' = true) : (m.set k v).has k' = true := by
  by_cases hk : k' = k
  · subst hk
    exact has_set_self m k' v
  · rw [has_iff_isSome_get?, get?_set_ne m v hk]
    exact (has_iff_isSome_get? m k').mp h

theorem mem_entries_mapVals {m : LMap α β} {f : β → β} {p : α × β} :
    p ∈ (m.mapVals f).entries ↔ ∃ q ∈ m.entries, p = (q.1, f q.2) := by
  simp only [mapVals, List.mem_map]
  constructor
  · rintro ⟨q, hq, rfl⟩
    exact ⟨q, hq, rfl⟩
  · rintro ⟨q, hq, rfl⟩
    exact ⟨q, hq, rfl⟩

end LMap

/-!
## General helper lemmas
-/

/-- Rewriting the active pointer to its current value is the identity. -/
theorem WState.eta_active {s : WState} {aid : String}
    (h : s.activeLayerId = some aid) :
    { s with activeLayerId := some aid } = s := by
  cases s
  simp only at h
  simp [h]

/-- If a list is pairwise related, its head is related to every element
(or equal to it). -/
theorem pairwise_head?_rel {γ : Type} {r : γ → γ → Prop} {l : List γ} {a : γ}
    (hp : l.Pairwise r) (ha : l.head? = some a) :
    ∀ b ∈ l, b = a ∨ r a b := by
  cases l with
  | nil => cases ha
  | cons x xs =>
    simp only [List.head?_cons, Option.some.injEq] at ha
    subst ha
    intro b hb
    rcases List.mem_cons.mp hb with rfl | hbs
    · exact Or.inl rfl
    · exact Or.inr ((List.pairwise_cons.mp hp).1 b hbs)

/-- If a list is pairwise related, every element is related to its last
element (or equal to it). -/
theorem pairwise_getLast?_rel {γ : Type} {r : γ → γ → Prop} {l : List γ}
    {b : γ} (hp : l.Pairwise r) (hb : l.getLast? = some b) :
    ∀ a ∈ l, a = b ∨ r a b := by
  induction l with
  | nil => cases hb
  | cons x xs ih =>
    intro a ha
    cases xs with
    | nil =>
      simp only [List.getLast?_singleton, Option.some.injEq] at hb
      subst hb
      simp only [List.mem_singleton] at ha
      exact Or.inl ha
    | cons y ys =>
      have hb' : (y :: ys).getLast? = some b := by
        simpa [List.getLast?_cons_cons] using hb
      have hp' := List.pairwise_cons.mp hp
      rcases List.mem_cons.mp ha with rfl | has
      · right
        have hne : (y :: ys) ≠ [] := by simp
        rw [List.getLast?_eq_getLast (y :: ys) hne] at hb'
        have hbe : b = (y :: ys).getLast hne := by
          simpa using hb'.symm
        rw [hbe]
        exact hp'.1 _ (List.getLast_mem hne)
      · exact ih hp'.2 hb' a has

/-!
## Claim theorems
-/

/-- C5: `addRoot` on an empty graph creates the node at `(0,0,0)`, marks it
active, and returns its id; on a non-empty graph it fails with the
duplicate-root error and leaves the state exactly as before. -/
theorem addRoot_spec :
    (∀ (s : WState) (layer : LayerDefinition), s.layers.size = 0 →
      (addRootLayer s layer).1 = .ok layer.id ∧
      (addRootLayer s layer).2.activeLayerId = some layer.id ∧
      (addRootLayer s layer).2.layers.get? layer.id =
        some { id := layer.id, title := layer.title, x := 0, y := 0, z := 0,
               adjacent := {} }) ∧
    (∀ (s : WState) (layer : LayerDefinition), 0 < s.layers.size →
      (addRootLayer s layer).1 = .error .duplicateRoot ∧
      (addRootLayer s layer).2 = s) := by
  constructor
  · intro s layer h
    unfold addRootLayer
    rw [if_neg (by omega)]
    refine ⟨rfl, rfl, ?_⟩
    show ((registerNode s _).layers).get? layer.id = _
    unfold registerNode
    exact LMap.get?_set_self ..
  · intro s layer h
    unfold addRootLayer
    rw [if_pos (by omega)]
    exact ⟨rfl, rfl⟩

/-- C5 witness: instantiates both parts at concrete states. -/
theorem addRoot_spec_witness :
    (addRootLayer WState.empty { id := "r", title := "r" }).1 = .ok "r" ∧
    (addRootLayer wsRoot { id := "r2", title := "r2" }).1 =
      .error .duplicateRoot ∧
    (addRootLayer wsRoot { id := "r2", title := "r2" }).2 = wsRoot := by
  refine ⟨(addRoot_spec.1 WState.empty { id := "r", title := "r" }
    (by decide)).1, ?_, ?_⟩
  · exact (addRoot_spec.2 wsRoot { id := "r2", title := "r2" } (by decide)).1
  · exact (addRoot_spec.2 wsRoot { id := "r2", title := "r2" } (by decide)).2

/-- C10: whenever `addLayer` fails — unknown source id, occupied edge, or
occupied target coordinate — the error is raised before any mutation, so the
state after the failed call (node store, position index, surface stacks,
adjacency, active pointer) is exactly the state before it. -/
theorem addLayer_error_frame :
    ∀ (s : WState) (input : ConnectLayerInput),
      (∃ e, (addLayer s input).1 = Except.error e) →
      (addLayer s input).2 = s := by
  intro s input ⟨e, he⟩
  unfold addLayer at he ⊢
  cases hg : s.layers.get? input.fromLayerId with
  | none => simp [hg]
  | some con =>
    simp only [hg] at he ⊢
    by_cases hedge : (con.adjacent.get input.direction.toAdjKey).isSome
    · simp [hedge]
    · rcases htc : targetCoord con input.direction with ⟨x, y, z⟩
      simp only [Bool.not_eq_true] at hedge
      simp only [htc, hedge] at he ⊢
      by_cases hpos : s.positionIndex.has (coordKey x y z)
      · simp [hpos]
      · simp [hpos] at he

/-- C10 witness: a failed connect from an unknown source leaves the empty
workspace untouched. -/
theorem addLayer_error_frame_witness :
    (addLayer WState.empty
      { id := "a", title := "a", fromLayerId := "ghost",
        direction := .right }).2 = WState.empty :=
  addLayer_error_frame WState.empty
    { id := "a", title := "a", fromLayerId := "ghost", direction := .right }
    ⟨.layerNotFound "ghost", by decide⟩

/-- C9: a lateral `navigate` from an active node with no neighbor in that
direction is a no-op on the whole state, and `navigateToGridPosition` on a
coordinate holding no layer is a no-op on the whole grid state (so neither
changes the active layer nor appends any history entry). -/
theorem navigate_wall_bump_noop :
    (∀ (s : WState) (aid : String) (active : LayerNode),
      s.activeLayerId = some aid → s.layers.get? aid = some active →
      (active.adjacent.up = none → navigate s .up = s) ∧
      (active.adjacent.down = none → navigate s .down = s) ∧
      (active.adjacent.left = none → navigate s .left = s) ∧
      (active.adjacent.right = none → navigate s .right = s)) ∧
    (∀ (gs : Grid.GridState) (p : Grid.Grid3DPosition),
      (∀ m ∈ gs.layers.entries.map Prod.snd,
        ¬ (m.x = p.x ∧ m.y = p.y ∧ m.z = p.z)) →
      Grid.navigateToGridPosition gs p = gs) := by
  constructor
  · intro s aid active h1 h2
    refine ⟨fun h => ?_, fun h => ?_, fun h => ?_, fun h => ?_⟩ <;>
      simp [navigate, h1, h2, Adjacent.get, h, followNeighbor]
  · intro gs p h
    unfold Grid.navigateToGridPosition
    have : (gs.layers.entries.map Prod.snd).find? (fun layer =>
        decide (layer.x = p.x ∧ layer.y = p.y ∧ layer.z = p.z)) = none := by
      rw [List.find?_eq_none]
      intro m hm
      simpa using h m hm
    rw [this]

/-- C9 witness: the root of `wsRoot` has no left neighbor, and the empty
coordinate `(5,5,5)` of the grid scenario holds no layer. -/
theorem navigate_wall_bump_noop_witness :
    navigate wsRoot .left = wsRoot ∧
    Grid.navigateToGridPosition Grid.scenario { x := 5, y := 5, z := 5 } =
      Grid.scenario := by
  constructor
  · exact ((navigate_wall_bump_noop.1 wsRoot "r"
      { id := "r", title := "r", x := 0, y := 0, z := 0, adjacent := {} }
      (by decide) (by decide)).2.2.1 (by decide))
  · exact navigate_wall_bump_noop.2 Grid.scenario { x := 5, y := 5, z := 5 }
      (by decide)

/-- C3 counterexample: in the coordinate-grid variant, navigating to an
unregistered id is silently swallowed as a no-op — the state is unchanged and
`navigateToLayer` has no error channel at all — contradicting the claim that
every unknown-id navigation fails with an error signalled to the caller. -/
theorem navigateToLayer_unknown_silent :
    Grid.oneLayer.layers.get? "ghost" = none ∧
    "ghost" ∉ Grid.oneLayer.layerOrder ∧
    Grid.navigateToLayer Grid.oneLayer "ghost" = Grid.oneLayer := by
  refine ⟨by decide, by decide, by decide⟩

/-- C3 amended: the edge-linked workspace's `setActiveLayer` does fail with a
distinct unknown-id error (and leaves the state unchanged), while the grid
variant's `navigateToLayer` silently ignores unknown ids. -/
theorem unknown_id_navigation :
    (∀ (s : WState) (layerId : String), s.layers.has layerId = false →
      (setActiveLayer s layerId).1 = .error (.layerNotFound layerId) ∧
      (setActiveLayer s layerId).2 = s) ∧
    (∀ (gs : Grid.GridState) (layerId : String),
      layerId ∉ gs.layerOrder →
      Grid.navigateToLayer gs layerId = gs) := by
  constructor
  · intro s layerId h
    unfold setActiveLayer
    rw [if_neg (by simp [h])]
    exact ⟨rfl, rfl⟩
  · intro gs layerId h
    unfold Grid.navigateToLayer Grid.jsIndexOf
    simp [h]

/-- C3 witness: instantiates both parts at unknown ids of concrete states. -/
theorem unknown_id_navigation_witness :
    (setActiveLayer wsRoot "ghost").1 = .error (.layerNotFound "ghost") ∧
    (setActiveLayer wsRoot "ghost").2 = wsRoot ∧
    Grid.navigateToLayer Grid.scenario "ghost" = Grid.scenario := by
  refine ⟨(unknown_id_navigation.1 wsRoot "ghost" (by decide)).1,
    (unknown_id_navigation.1 wsRoot "ghost" (by decide)).2,
    unknown_id_navigation.2 Grid.scenario "ghost" (by decide)⟩

/-- C2 counterexample: `navigateToIndex(5)` on a grid with a single layer —
an out-of-range index — does not leave the workspace unchanged: it moves the
current offset to `-5000` and deactivates the active layer. -/
theorem navigateToIndex_oob_moves_state :
    (Grid.oneLayer.layerOrder.length : Int) ≤ 5 ∧
    Grid.oneLayer.currentOffset = 0 ∧
    (Grid.navigateToIndex Grid.oneLayer 5).currentOffset = -5000 ∧
    (Grid.getActiveLayer Grid.oneLayer).map (fun l => l.id) = some "r" ∧
    Grid.getActiveLayer (Grid.navigateToIndex Grid.oneLayer 5) = none := by
  refine ⟨by decide, by decide, by decide, by decide, by decide⟩

/-- C2 amended: for an out-of-range index `i`, `navigateToIndex(i)` does not
throw and appends nothing to the history (history, cursor, `currentX`,
`currentY` are unchanged), but it still re-centres `currentOffset` on `-i ·
offset` and recomputes every layer's state — active exactly when the
creation index equals `-i` — so for `i` at or beyond the layer count every
registered layer (index below the count) becomes inactive. -/
theorem navigateToIndex_out_of_range (gs : Grid.GridState) (i : Int)
    (h : i < 0 ∨ (gs.layerOrder.length : Int) ≤ i) :
    Grid.navigateToIndex gs i =
      { gs with
        currentOffset := -i * Grid.offsetRef
        layers := gs.layers.mapVals (fun layer =>
          { layer with
            state :=
              if -(layer.index : Int) * Grid.offsetRef + -i * Grid.offsetRef
                  = 0 then
                Grid.LayerState.active
              else Grid.LayerState.inactive }) } ∧
    (Grid.navigateToIndex gs i).history = gs.history ∧
    (Grid.navigateToIndex gs i).historyIndex = gs.historyIndex ∧
    ((gs.layerOrder.length : Int) ≤ i →
      ∀ m ∈ (Grid.navigateToIndex gs i).layers.entries.map Prod.snd,
        m.index < gs.layerOrder.length →
        m.state = Grid.LayerState.inactive) := by
  have hmain : Grid.navigateToIndex gs i =
      { gs with
        currentOffset := -i * Grid.offsetRef
        layers := gs.layers.mapVals (fun layer =>
          { layer with
            state :=
              if -(layer.index : Int) * Grid.offsetRef + -i * Grid.offsetRef
                  = 0 then
                Grid.LayerState.active
              else Grid.LayerState.inactive }) } := by
    unfold Grid.navigateToIndex Grid.navigateToIndexFrom
    rw [if_neg (by omega)]
  refine ⟨hmain, by rw [hmain], by rw [hmain], ?_⟩
  intro hge m hm hidx
  rw [hmain] at hm
  simp only [List.mem_map] at hm
  obtain ⟨q, hq, rfl⟩ := hm
  rcases LMap.mem_entries_mapVals.mp hq with ⟨e, he, rfl⟩
  simp only
  rw [if_neg (by simp only [Grid.offsetRef]; omega)]

/-- C2 witness: the amended behaviour at the concrete out-of-range call. -/
theorem navigateToIndex_out_of_range_witness :
    (Grid.navigateToIndex Grid.oneLayer 5).history = Grid.oneLayer.history ∧
    (Grid.navigateToIndex Grid.oneLayer 5).historyIndex =
      Grid.oneLayer.historyIndex := by
  refine ⟨(navigateToIndex_out_of_range Grid.oneLayer 5
      (Or.inr (by decide))).2.1,
    (navigateToIndex_out_of_range Grid.oneLayer 5
      (Or.inr (by decide))).2.2.1⟩

/-- C1 counterexample: in the scenario (root/A/B registered on the grid,
`navigateToPosition(2,0,0)`), the first `back()` does not activate `A`: the
cursor is 0 (registration recorded nothing), so `back()` is a complete no-op
and `B` stays active. -/
theorem goBack_scenario_stays_on_B :
    Grid.scenario.historyIndex = 0 ∧
    Grid.goBack Grid.scenario = Grid.scenario ∧
    (Grid.getActiveLayer (Grid.goBack Grid.scenario)).map (fun l => l.id) ≠
      some "A" := by
  refine ⟨by decide, by decide, by decide⟩

/-- C1 amended: `back()` is a no-op whenever the history cursor is at most 0,
and — since layer registration records no history — the scenario's single
recorded navigation leaves the cursor at 0, so `back(), back(), forward()`
are all no-ops and `B` remains the active layer throughout. -/
theorem goBack_cursor_guard :
    (∀ gs : Grid.GridState, gs.historyIndex ≤ 0 → Grid.goBack gs = gs) ∧
    ((Grid.getActiveLayer Grid.scenario).map (fun l => l.id) = some "B" ∧
     Grid.scenario.historyIndex = 0 ∧
     Grid.scenario.history =
       [{ layerId := "B", index := 2 }] ∧
     Grid.goBack Grid.scenario = Grid.scenario ∧
     Grid.goForward (Grid.goBack (Grid.goBack Grid.scenario)) =
       Grid.scenario ∧
     (Grid.getActiveLayer
        (Grid.goForward (Grid.goBack (Grid.goBack Grid.scenario)))).map
          (fun l => l.id) = some "B") := by
  constructor
  · intro gs h
    unfold Grid.goBack
    rw [if_neg (by omega)]
  · refine ⟨by decide, by decide, by decide, by decide, by decide, by decide⟩

/-- C1 witness: the cursor guard applied at the concrete scenario state. -/
theorem goBack_cursor_guard_witness :
    Grid.goBack Grid.scenario = Grid.scenario :=
  goBack_cursor_guard.1 Grid.scenario (by decide)

/-- C6: after a successful `connect(fromId, "up", def)` returning `newId`,
the call `connect(newId, "down", def2)` fails and leaves the state unchanged;
the second call's target coordinate is exactly `fromId`'s coordinate, which
is already occupied by `fromId` in the position index. -/
theorem connect_up_then_down_fails
    (s : WState) (i1 i2 : ConnectLayerInput) (con : LayerNode)
    (newId : String) (s1 : WState)
    (hcon : s.layers.get? i1.fromLayerId = some con)
    (hpos : s.positionIndex.get? (coordKey con.x con.y con.z) =
      some i1.fromLayerId)
    (hd1 : i1.direction = .up)
    (hok : addLayer s i1 = (.ok newId, s1))
    (hfrom2 : i2.fromLayerId = newId)
    (hd2 : i2.direction = .down) :
    (∃ e, (addLayer s1 i2).1 = .error e) ∧
    (addLayer s1 i2).2 = s1 ∧
    (∀ n, s1.layers.get? newId = some n →
      targetCoord n .down = coordKey con.x con.y con.z) ∧
    s1.positionIndex.get? (coordKey con.x con.y con.z) =
      some i1.fromLayerId := by
  unfold addLayer at hok
  rw [hd1] at hok
  simp only [hcon, targetCoord, edgeOffsets, ConnectDirection.toAdjKey,
    add_zero] at hok
  by_cases hedge : (con.adjacent.get AdjKey.up).isSome
  · simp [hedge] at hok
  · simp only [Bool.not_eq_true] at hedge
    simp only [hedge, Bool.false_eq_true, if_false] at hok
    by_cases hocc : s.positionIndex.has (coordKey con.x (con.y + 1) con.z)
    · simp [hocc] at hok
    · simp only [Bool.not_eq_true] at hocc
      simp only [hocc, Bool.false_eq_true, if_false, registerNode, updateNode,
        LMap.get?_set_self, Option.getD_some, oppositeEdge, Adjacent.setKey,
        Prod.mk.injEq, Except.ok.injEq] at hok
      obtain ⟨hid, hs1⟩ := hok
      subst hid
      subst hs1
      refine ⟨?_, ?_, ?_, ?_⟩
      · rw [show (addLayer _ i2).1 = Except.error
          (.edgeOccupied i1.id i2.direction) from ?_]
        · exact ⟨_, rfl⟩
        · unfold addLayer
          rw [hfrom2]
          simp only [LMap.get?_set_self]
          rw [hd2]
          simp [Adjacent.get, ConnectDirection.toAdjKey]
      · unfold addLayer
        rw [hfrom2]
        simp only [LMap.get?_set_self]
        rw [hd2]
        simp [Adjacent.get, ConnectDirection.toAdjKey]
      · intro n hn
        simp only [LMap.get?_set_self, Option.some.injEq] at hn
        subst hn
        simp only [targetCoord, edgeOffsets, coordKey, Prod.mk.injEq]
        refine ⟨by omega, by omega, trivial⟩
      · simp only []
        rw [LMap.get?_set_ne _ _ (by simp [coordKey])]
        exact hpos

/-- C6 witness: the concrete run — root `"r"`, `connect("r","up")` giving
`"n"`, then `connect("n","down")` — fails and leaves the state unchanged. -/
theorem connect_up_then_down_fails_witness :
    (∃ e, (addLayer wsUp
      { id := "m", title := "m", fromLayerId := "n",
        direction := .down }).1 = Except.error e) ∧
    (addLayer wsUp
      { id := "m", title := "m", fromLayerId := "n",
        direction := .down }).2 = wsUp := by
  have h := connect_up_then_down_fails wsRoot
    { id := "n", title := "n", fromLayerId := "r", direction := .up }
    { id := "m", title := "m", fromLayerId := "n", direction := .down }
    { id := "r", title := "r", x := 0, y := 0, z := 0, adjacent := {} }
    "n" wsUp (by decide) (by decide) rfl (by decide) rfl rfl
  exact ⟨h.1, h.2.1⟩

/-- One successful `addLayer` call with a fresh id grows the node store and
the position index by exactly one entry each and preserves id-coherence. -/
theorem addLayer_ok_step {s : WState} {i : ConnectLayerInput}
    (hok : ∃ id, (addLayer s i).1 = .ok id)
    (hfresh : s.layers.has i.id = false)
    (hco : idCoherent s) :
    (addLayer s i).2.layers.size = s.layers.size + 1 ∧
    (addLayer s i).2.positionIndex.size = s.positionIndex.size + 1 ∧
    idCoherent (addLayer s i).2 := by
  obtain ⟨nid, hok⟩ := hok
  unfold addLayer at hok ⊢
  cases hg : s.layers.get? i.fromLayerId with
  | none => simp only [hg] at hok; cases hok
  | some con =>
    simp only [hg] at hok ⊢
    have hconid : con.id = i.fromLayerId :=
      hco (i.fromLayerId, con) (LMap.mem_of_get? hg)
    have hhasfrom : s.layers.has i.fromLayerId = true :=
      (LMap.has_iff_isSome_get? s.layers i.fromLayerId).mpr (by simp [hg])
    by_cases hedge : (con.adjacent.get i.direction.toAdjKey).isSome
    · simp only [hedge, if_true] at hok; cases hok
    · simp only [Bool.not_eq_true] at hedge
      simp only [hedge, Bool.false_eq_true, if_false] at hok ⊢
      rcases htc : targetCoord con i.direction with ⟨x, y, z⟩
      simp only [htc] at hok ⊢
      by_cases hocc : s.positionIndex.has (coordKey x y z)
      · simp only [hocc, if_true] at hok; cases hok
      · simp only [Bool.not_eq_true] at hocc
        simp only [hocc, Bool.false_eq_true, if_false, registerNode,
          updateNode, LMap.get?_set_self, Option.getD_some] at hok ⊢
        refine ⟨?_, ?_, ?_⟩
        · rw [LMap.size_set_of_has _ ?hl3, LMap.size_set_of_has _ ?hl2,
            LMap.size_set_of_has_false _ hfresh]
          case hl2 =>
            rw [hconid]
            exact LMap.has_set_of_has _ _ hhasfrom
          case hl3 =>
            exact LMap.has_set_of_has _ _ (LMap.has_set_self _ _ _)
        · exact LMap.size_set_of_has_false _ hocc
        · intro q hq
          rcases LMap.mem_entries_set.mp hq with rfl | ⟨hq2, _⟩
          · rfl
          · rcases LMap.mem_entries_set.mp hq2 with rfl | ⟨hq3, _⟩
            · rfl
            · rcases LMap.mem_entries_set.mp hq3 with rfl | ⟨hq4, _⟩
              · rfl
              · exact hco q hq4

/-- C8 counterexample: reusing the root's id in a connect call that succeeds
(its target coordinate `(1,0,0)` is free) overwrites the node-store entry
while the position index still grows, so after the call the position index
has 2 entries but the node store only 1. -/
theorem dup_id_connect_breaks_size :
    (addRootLayer WState.empty { id := "r", title := "r" }).1 = .ok "r" ∧
    wsRoot.positionIndex.has (coordKey 1 0 0) = false ∧
    (addLayer wsRoot wsDupInput).1 = .ok "r" ∧
    (addLayer wsRoot wsDupInput).2.positionIndex.size = 2 ∧
    (addLayer wsRoot wsDupInput).2.layers.size = 1 := by
  refine ⟨by decide, by decide, by decide, by decide, by decide⟩

/-- C8 amended: starting from `addRoot` on the empty workspace, any run of
`addLayer` calls that all succeed *and all use fresh ids* keeps
`positionIndex.size = nodesById.size` at every intermediate state (every
intermediate state is the final state of a prefix run, to which the second
conjunct applies). -/
theorem connect_size_invariant :
    (∀ layer : LayerDefinition,
      sizeEq (addRootLayer WState.empty layer).2 ∧
      idCoherent (addRootLayer WState.empty layer).2) ∧
    (∀ (s : WState) (is : List ConnectLayerInput) (sf : WState),
      ConnSeq s is sf → sizeEq s → idCoherent s →
      sizeEq sf ∧ idCoherent sf) := by
  constructor
  · intro layer
    unfold addRootLayer
    rw [if_neg (by decide)]
    constructor
    · show sizeEq (registerNode WState.empty _)
      unfold sizeEq registerNode WState.empty
      rw [LMap.size_set_of_has_false _ (by rfl),
        LMap.size_set_of_has_false _ (by rfl)]
      rfl
    · intro q hq
      rcases LMap.mem_entries_set.mp hq with rfl | ⟨hq2, _⟩
      · rfl
      · cases hq2
  · intro s is sf hseq
    induction hseq with
    | nil => exact fun h1 h2 => ⟨h1, h2⟩
    | cons hok hfresh htail ih =>
      intro h1 h2
      have step := addLayer_ok_step hok hfresh h2
      exact ih (by unfold sizeEq at h1 ⊢; omega) step.2.2

/-- C8 witness: the invariant holds along the concrete fresh-id run
root → right `"A"` → right `"B"`. -/
theorem connect_size_invariant_witness :
    sizeEq (addLayer wsRight
      { id := "B", title := "B", fromLayerId := "A",
        direction := .right }).2 := by
  have hseq : ConnSeq wsRoot
      [{ id := "A", title := "A", fromLayerId := "r", direction := .right },
       { id := "B", title := "B", fromLayerId := "A", direction := .right }]
      (addLayer wsRight
        { id := "B", title := "B", fromLayerId := "A",
          direction := .right }).2 :=
    ConnSeq.cons ⟨"A", by decide⟩ (by decide)
      (ConnSeq.cons ⟨"B", by decide⟩ (by decide) (ConnSeq.nil _))
  exact (connect_size_invariant.2 wsRoot _ _ hseq
    (connect_size_invariant.1 { id := "r", title := "r" }).1
    (connect_size_invariant.1 { id := "r", title := "r" }).2).1

/-- C7: after a successful `connect(root, "right", A)` (with a fresh id), the
edge is recorded bidirectionally: `isEdgeAvailable(root, "right")` and
`isEdgeAvailable(A, "left")` are false, while `isEdgeAvailable(A, "right")`
is true. -/
theorem connect_right_edge_availability
    (s : WState) (input : ConnectLayerInput) (con : LayerNode)
    (newId : String) (s1 : WState)
    (hcon : s.layers.get? input.fromLayerId = some con)
    (hconid : con.id = input.fromLayerId)
    (hdir : input.direction = .right)
    (hne : input.id ≠ input.fromLayerId)
    (hok : addLayer s input = (.ok newId, s1)) :
    isEdgeAvailable s1 input.fromLayerId .right = false ∧
    isEdgeAvailable s1 newId .left = false ∧
    isEdgeAvailable s1 newId .right = true := by
  unfold addLayer at hok
  rw [hdir] at hok
  simp only [hcon, targetCoord, edgeOffsets, ConnectDirection.toAdjKey,
    add_zero] at hok
  by_cases hedge : (con.adjacent.get AdjKey.right).isSome
  · simp [hedge] at hok
  · simp only [Bool.not_eq_true] at hedge
    simp only [hedge, Bool.false_eq_true, if_false] at hok
    by_cases hocc : s.positionIndex.has (coordKey (con.x + 1) con.y con.z)
    · simp [hocc] at hok
    · simp only [Bool.not_eq_true] at hocc
      simp only [hocc, Bool.false_eq_true, if_false, registerNode,
        updateNode, LMap.get?_set_self, Option.getD_some, oppositeEdge,
        Adjacent.setKey, Prod.mk.injEq, Except.ok.injEq] at hok
      obtain ⟨hid, hs1⟩ := hok
      subst hid
      subst hs1
      refine ⟨?_, ?_, ?_⟩
      · unfold isEdgeAvailable
        rw [LMap.get?_set_ne _ _ (Ne.symm hne)]
        rw [show con.id = input.fromLayerId from hconid] at *
        rw [LMap.get?_set_self]
        simp [Adjacent.get, ConnectDirection.toAdjKey, Adjacent.setKey]
      · unfold isEdgeAvailable
        rw [LMap.get?_set_self]
        simp [Adjacent.get, ConnectDirection.toAdjKey]
      · unfold isEdgeAvailable
        rw [LMap.get?_set_self]
        simp [Adjacent.get, ConnectDirection.toAdjKey]

/-- C7 witness: the concrete run root → right `"A"`. -/
theorem connect_right_edge_availability_witness :
    isEdgeAvailable wsRight "r" .right = false ∧
    isEdgeAvailable wsRight "A" .left = false ∧
    isEdgeAvailable wsRight "A" .right = true :=
  connect_right_edge_availability wsRoot
    { id := "A", title := "A", fromLayerId := "r", direction := .right }
    { id := "r", title := "r", x := 0, y := 0, z := 0, adjacent := {} }
    "A" wsRight (by decide) rfl rfl (by decide) rfl

/-- The stack insertion step is Mathlib's ordered insert for the
descending-`z` relation. -/
theorem insertDescZ_eq (layers : LMap String LayerNode) (id : String)
    (l : List String) :
    insertDescZ layers id l =
      List.orderedInsert (fun a b => zOf layers b ≤ zOf layers a) id l := by
  induction l with
  | nil => rfl
  | cons x xs ih =>
    simp only [insertDescZ, List.orderedInsert]
    rw [ih]

/-- The stack sort is Mathlib's insertion sort for the descending-`z`
relation. -/
theorem sortDescZ_eq (layers : LMap String LayerNode) (l : List String) :
    sortDescZ layers l =
      List.insertionSort (fun a b => zOf layers b ≤ zOf layers a) l := by
  induction l with
  | nil => rfl
  | cons x xs ih =>
    show insertDescZ layers x (sortDescZ layers xs) = _
    rw [ih, insertDescZ_eq]
    rfl

/-- A sorted stack is pairwise descending in `z`. -/
theorem sortDescZ_pairwise (layers : LMap String LayerNode)
    (l : List String) :
    (sortDescZ layers l).Pairwise
      (fun a b => zOf layers b ≤ zOf layers a) := by
  rw [sortDescZ_eq]
  haveI : IsTotal String (fun a b => zOf layers b ≤ zOf layers a) :=
    ⟨fun a b => le_total _ _⟩
  haveI : IsTrans String (fun a b => zOf layers b ≤ zOf layers a) :=
    ⟨fun a b c h1 h2 => le_trans h2 h1⟩
  exact List.sorted_insertionSort _ l

/-- Sorting a stack only permutes it. -/
theorem mem_sortDescZ {layers : LMap String LayerNode} {l : List String}
    {a : String} : a ∈ sortDescZ layers l ↔ a ∈ l := by
  rw [sortDescZ_eq]
  exact List.mem_insertionSort _

/-- The last element of a list is a member. -/
theorem mem_of_getLast?_eq {γ : Type} {l : List γ} {b : γ}
    (h : l.getLast? = some b) : b ∈ l := by
  cases l with
  | nil => cases h
  | cons x xs =>
    rw [List.getLast?_eq_getLast _ (by simp)] at h
    have hb := (Option.some.injEq _ _).mp h
    rw [← hb]
    exact List.getLast_mem _

/-- `registerNode` keeps the surface-stack invariant when the inserted node
has a fresh id. -/
theorem surfInv_registerNode (s : WState) (node : LayerNode)
    (hinv : surfInv s) (hfresh : s.layers.get? node.id = none) :
    surfInv (registerNode s node) := by
  obtain ⟨hnd, hsnd, htot, hstk⟩ := hinv
  have fnotin : ∀ p ∈ s.surfaceStacks.entries, node.id ∉ p.2 := by
    intro p hp hmem
    have hs := (hstk p hp).2.1 node.id hmem
    rw [hfresh] at hs
    cases hs
  have fz : ∀ id : String, id ≠ node.id →
      zOf (s.layers.set node.id node) id = zOf s.layers id := by
    intro id hne
    unfold zOf
    rw [LMap.get?_set_ne _ _ hne]
  refine ⟨LMap.keysNodup_set _ _ hnd, LMap.keysNodup_set _ _ hsnd, ?_, ?_⟩
  · intro q hq
    rcases LMap.mem_entries_set.mp hq with rfl | ⟨hq2, _⟩
    · exact LMap.has_set_self _ _ _
    · exact LMap.has_set_of_has _ _ (htot q hq2)
  · intro p hp
    rcases LMap.mem_entries_set.mp hp with rfl | ⟨hp2, hpk⟩
    · -- the (re)written stack of the inserted node's surface
      have holdstack : ∀ id ∈ (s.surfaceStacks.get?
          (surfaceKey node.x node.y)).getD [],
          id ≠ node.id ∧ (s.layers.get? id).map
            (fun n => surfaceKey n.x n.y) =
              some (surfaceKey node.x node.y) := by
        intro id hid
        cases hget : s.surfaceStacks.get? (surfaceKey node.x node.y) with
        | none => rw [hget] at hid; cases hid
        | some ostack =>
          rw [hget] at hid
          simp only [Option.getD_some] at hid
          have hpold := hstk _ (LMap.mem_of_get? hget)
          exact ⟨fun hc => fnotin _ (LMap.mem_of_get? hget)
              (by rw [← hc]; exact hid),
            hpold.2.1 id hid⟩
      refine ⟨sortDescZ_pairwise _ _, ?_, ?_⟩
      · intro id hid
        rw [mem_sortDescZ, List.mem_append] at hid
        rcases hid with hid | hid
        · obtain ⟨hne, hmap⟩ := holdstack id hid
          show ((s.layers.set node.id node).get? id).map _ = _
          rw [LMap.get?_set_ne _ _ hne]
          exact hmap
        · simp only [List.mem_singleton] at hid
          subst hid
          show ((s.layers.set node.id node).get? node.id).map _ = _
          rw [LMap.get?_set_self]
          rfl
      · intro q hq hsurf
        rw [mem_sortDescZ, List.mem_append]
        rcases LMap.mem_entries_set.mp hq with rfl | ⟨hq2, hqne⟩
        · right
          simp
        · left
          have hsurf' : surfaceKey q.2.x q.2.y = surfaceKey node.x node.y :=
            hsurf
          have hhas := htot q hq2
          rw [hsurf'] at hhas
          cases hget : s.surfaceStacks.get? (surfaceKey node.x node.y) with
          | none =>
            have hfalse := LMap.has_false_of_get?_none hget
            rw [hfalse] at hhas
            cases hhas
          | some ostack =>
            simp only [hget, Option.getD_some]
            exact (hstk _ (LMap.mem_of_get? hget)).2.2 q hq2 hsurf'
    · -- an untouched surface stack
      have hnotin := fnotin p hp2
      refine ⟨?_, ?_, ?_⟩
      · show List.Pairwise (fun a b =>
            zOf (s.layers.set node.id node) b ≤
              zOf (s.layers.set node.id node) a) p.2
        refine List.Pairwise.imp_of_mem ?_ (hstk p hp2).1
        intro a b ha hb hr
        rw [fz a (fun hc => hnotin (by rw [← hc]; exact ha)),
          fz b (fun hc => hnotin (by rw [← hc]; exact hb))]
        exact hr
      · intro id hid
        have hmap := (hstk p hp2).2.1 id hid
        show ((s.layers.set node.id node).get? id).map _ = _
        rw [LMap.get?_set_ne _ _ (fun hc => hnotin (by rw [← hc]; exact hid))]
        exact hmap
      · intro q hq hsurf
        rcases LMap.mem_entries_set.mp hq with rfl | ⟨hq2, _⟩
        · exact absurd hsurf.symm hpk
        · exact (hstk p hp2).2.2 q hq2 hsurf

/-- C4: with an active node present, `navigate("first")` activates the head
of the active surface's stack — the shallowest (maximal-`z`) node on that
`(x,y)` surface — and `navigate("last")` activates its tail — the deepest
(minimal-`z`) node; a missing stack, or a target equal to the active node,
is a no-op.  The stacks are kept sorted by descending `z`: `registerNode`
preserves the surface-stack invariant for every fresh id. -/
theorem navigate_first_last_surface :
    (∀ (s : WState) (aid : String) (active : LayerNode),
      surfInv s →
      s.activeLayerId = some aid → s.layers.get? aid = some active →
      (s.surfaceStacks.get? (surfaceKey active.x active.y) = none →
        navigate s .first = s ∧ navigate s .last = s) ∧
      (∀ stack top,
        s.surfaceStacks.get? (surfaceKey active.x active.y) = some stack →
        stack.head? = some top →
        (navigate s .first).activeLayerId = some top ∧
        (∃ n, s.layers.get? top = some n ∧ n.x = active.x ∧ n.y = active.y ∧
          ∀ q ∈ s.layers.entries, q.2.x = active.x → q.2.y = active.y →
            q.2.z ≤ n.z)) ∧
      (∀ stack bot,
        s.surfaceStacks.get? (surfaceKey active.x active.y) = some stack →
        stack.getLast? = some bot →
        (navigate s .last).activeLayerId = some bot ∧
        (∃ n, s.layers.get? bot = some n ∧ n.x = active.x ∧ n.y = active.y ∧
          ∀ q ∈ s.layers.entries, q.2.x = active.x → q.2.y = active.y →
            n.z ≤ q.2.z)) ∧
      (∀ stack,
        s.surfaceStacks.get? (surfaceKey active.x active.y) = some stack →
        stack.head? = some aid → navigate s .first = s) ∧
      (∀ stack,
        s.surfaceStacks.get? (surfaceKey active.x active.y) = some stack →
        stack.getLast? = some aid → navigate s .last = s)) ∧
    (∀ (t : WState) (node : LayerNode), surfInv t →
      t.layers.get? node.id = none → surfInv (registerNode t node)) := by
  constructor
  · intro s aid active hinv ha hn
    obtain ⟨hnd, hsnd, htot, hstk⟩ := hinv
    refine ⟨?_, ?_, ?_, ?_, ?_⟩
    · intro hget
      constructor <;> simp [navigate, ha, hn, hget]
    · intro stack top hget hhead
      have hp := hstk _ (LMap.mem_of_get? hget)
      have htop : top ∈ stack := List.mem_of_mem_head? hhead
      have hmap := hp.2.1 top htop
      rw [Option.map_eq_some'] at hmap
      obtain ⟨n, hn2, hkey⟩ := hmap
      have hxy : n.x = active.x ∧ n.y = active.y := by
        have : surfaceKey n.x n.y = surfaceKey active.x active.y := hkey
        simpa [surfaceKey, Prod.mk.injEq] using this
      refine ⟨by simp [navigate, ha, hn, hget, hhead], n, hn2, hxy.1, hxy.2,
        ?_⟩
      intro q hq hx hy
      have hq1 : q.1 ∈ stack :=
        hp.2.2 q hq (by simp [surfaceKey, hx, hy])
      have hrel := pairwise_head?_rel hp.1 hhead q.1 hq1
      have hzq : zOf s.layers q.1 = q.2.z := by
        unfold zOf
        rw [LMap.get?_of_mem hnd hq]
        rfl
      have hzt : zOf s.layers top = n.z := by
        unfold zOf
        rw [hn2]
        rfl
      rcases hrel with heq | hle
      · have : s.layers.get? q.1 = some q.2 := LMap.get?_of_mem hnd hq
        rw [heq, hn2] at this
        have hqn : n = q.2 := by
          injection this
        rw [hqn]
      · rw [hzq, hzt] at hle
        exact hle
    · intro stack bot hget hlast
      have hp := hstk _ (LMap.mem_of_get? hget)
      have hbot : bot ∈ stack := mem_of_getLast?_eq hlast
      have hmap := hp.2.1 bot hbot
      rw [Option.map_eq_some'] at hmap
      obtain ⟨n, hn2, hkey⟩ := hmap
      have hxy : n.x = active.x ∧ n.y = active.y := by
        have : surfaceKey n.x n.y = surfaceKey active.x active.y := hkey
        simpa [surfaceKey, Prod.mk.injEq] using this
      refine ⟨by simp [navigate, ha, hn, hget, hlast], n, hn2, hxy.1, hxy.2,
        ?_⟩
      intro q hq hx hy
      have hq1 : q.1 ∈ stack :=
        hp.2.2 q hq (by simp [surfaceKey, hx, hy])
      have hrel := pairwise_getLast?_rel hp.1 hlast q.1 hq1
      have hzq : zOf s.layers q.1 = q.2.z := by
        unfold zOf
        rw [LMap.get?_of_mem hnd hq]
        rfl
      have hzb : zOf s.layers bot = n.z := by
        unfold zOf
        rw [hn2]
        rfl
      rcases hrel with heq | hle
      · have : s.layers.get? q.1 = some q.2 := LMap.get?_of_mem hnd hq
        rw [heq, hn2] at this
        have hqn : n = q.2 := by
          injection this
        rw [hqn]
      · rw [hzq, hzb] at hle
        exact hle
    · intro stack hget hhead
      have hstep : navigate s .first =
          { s with activeLayerId := some aid } := by
        simp [navigate, ha, hn, hget, hhead]
      rw [hstep]
      exact WState.eta_active ha
    · intro stack hget hlast
      have hstep : navigate s .last =
          { s with activeLayerId := some aid } := by
        simp [navigate, ha, hn, hget, hlast]
      rw [hstep]
      exact WState.eta_active ha
  · intro t node hinv hfresh
    exact surfInv_registerNode t node hinv hfresh

/-- C4 witness: on the workspace root → above `"t"` (surface stack
`["t", "r"]`), `last` activates the deepest node `"r"` and `first` is a
no-op since the shallowest node is already active. -/
theorem navigate_first_last_surface_witness :
    (navigate wsAbove .last).activeLayerId = some "r" ∧
    navigate wsAbove .first = wsAbove := by
  have hinv : surfInv wsAbove := by
    refine ⟨?_, ?_, ?_, ?_⟩
    · show (wsAbove.layers.entries.map Prod.fst).Nodup
      decide
    · show (wsAbove.surfaceStacks.entries.map Prod.fst).Nodup
      decide
    · decide
    · decide
  have h := navigate_first_last_surface.1 wsAbove "t"
    { id := "t", title := "t", x := 0, y := 0, z := 1,
      adjacent := { below := some "r" } }
    hinv (by decide) (by decide)
  exact ⟨(h.2.2.1 ["t", "r"] "r" (by decide) (by decide)).1,
    h.2.2.2.1 ["t", "r"] (by decide) (by decide)⟩
